import Mathlib

/-
Verification of the QSslDiffieHellmanParameters core of qtbase
(src/network/ssl/qssldiffiehellmanparameters.cpp,
 qssldiffiehellmanparameters_openssl.cpp, qssldiffiehellmanparameters_dummy.cpp,
 qssldiffiehellmanparameters_p.h).

The OpenSSL big-integer/ASN.1 facility is an external collaborator of the
code; it is modelled by a Backend record of oracle functions.  Machine
integers never overflow here: statuses are OpenSSL bitmasks handled as
natural numbers, and the C idiom `status &= ~FLAG` (for FLAG a single bit)
is embedded as subtraction of the masked bit, which clears exactly that bit
on every natural number.
-/

namespace QSslDH

/-- Flag DH_CHECK_P_NOT_PRIME from the OpenSSL header dh.h (value 0x01). -/
def DH_CHECK_P_NOT_PRIME : Nat := 1

/-- Flag DH_CHECK_P_NOT_SAFE_PRIME from the OpenSSL header dh.h (value 0x02). -/
def DH_CHECK_P_NOT_SAFE_PRIME : Nat := 2

/-- Flag DH_NOT_SUITABLE_GENERATOR from the OpenSSL header dh.h (value 0x08). -/
def DH_NOT_SUITABLE_GENERATOR : Nat := 8

/-- Constant DH_GENERATOR_2 from the OpenSSL header dh.h (value 2). -/
def DH_GENERATOR_2 : Nat := 2

/-- The combined mask named bad in isSafeDH, lines 81-83 of
qssldiffiehellmanparameters_openssl.cpp. -/
def badFlags : Nat :=
  DH_CHECK_P_NOT_PRIME ||| DH_CHECK_P_NOT_SAFE_PRIME ||| DH_NOT_SUITABLE_GENERATOR

/-- An OpenSSL DH structure restricted to the two fields the code reads:
the modulus p and the generator g, both non-negative big integers. -/
structure DH where
  p : Nat
  g : Nat
deriving DecidableEq

/-- Fuel-driven bit-length recursion: one halving per unit of fuel. -/
def bitLenFuel : Nat → Nat → Nat
  | _, 0 => 0
  | 0, _ => 0
  | fuel + 1, n => bitLenFuel fuel (n / 2) + 1

/-- Model of the external BN_num_bits: the number of significant bits of a
non-negative big integer (0 for 0).  Fuel n always suffices because n
halvings of n reach 0. -/
def bnNumBits (n : Nat) : Nat := bitLenFuel n n

/-- The external OpenSSL facility as used by the code, one oracle per symbol:
q_DH_check (none models a return value different from 1), q_d2i_DHparams,
q_BIO_new_mem_buf (false models allocation failure), q_PEM_read_bio_DHparams
reading from a BIO holding the given bytes, q_i2d_DHparams (some buf models a
positive length, none a non-positive one), and QSslSocket::supportsSsl. -/
structure Backend where
  dhCheck : DH → Option Nat
  d2i_DHparams : List Nat → Option DH
  bioNewMemBuf : List Nat → Bool
  pemReadBioDHparams : List Nat → Option DH
  i2d_DHparams : DH → Option (List Nat)
  supportsSsl : Bool

/-- Lines 75-79 of qssldiffiehellmanparameters_openssl.cpp: when g is the
word 2, compute residue = p mod 24 and, when the residue is 11 or 23, clear
DH_NOT_SUITABLE_GENERATOR from the status mask (status &= ~flag, embedded as
subtracting the masked bit). -/
def adjustStatus (dh : DH) (status : Nat) : Nat :=
  if dh.g == DH_GENERATOR_2 then
    let residue := dh.p % 24
    if residue == 11 || residue == 23 then
      status - (status &&& DH_NOT_SUITABLE_GENERATOR)
    else status
  else status

/-- Lines 49-86 of qssldiffiehellmanparameters_openssl.cpp: the static
isSafeDH classifier.  Reject below 1024 bits, reject when q_DH_check cannot
run, apply the generator-2 adjustment, then accept exactly when no bad flag
remains in the status mask. -/
def isSafeDH (B : Backend) (dh : DH) : Bool :=
  if bnNumBits dh.p < 1024 then false
  else
    match B.dhCheck dh with
    | none => false
    | some status => decide (adjustStatus dh status &&& badFlags = 0)

/-- The enum QSslDiffieHellmanParameters::Error from
qssldiffiehellmanparameters.h, lines 70-74. -/
inductive Error where
  | NoError
  | InvalidInputDataError
  | UnsafeParametersError
deriving DecidableEq

/-- The private data object QSslDiffieHellmanParametersPrivate from
qssldiffiehellmanparameters_p.h: an error state initialised to NoError and a
DER byte array initialised to the null array (modelled as none). -/
structure Priv where
  error : Error := Error.NoError
  derData : Option (List Nat) := none
deriving DecidableEq

/-- Lines 88-111 of qssldiffiehellmanparameters_openssl.cpp:
QSslDiffieHellmanParametersPrivate::decodeDer run on a fresh private object.
An empty input or a failed d2i parse yields InvalidInputDataError; a parsed
pair failing isSafeDH yields UnsafeParametersError; a safe pair stores the
original input bytes. -/
def decodeDer (B : Backend) (der : List Nat) : Priv :=
  if der = [] then { error := Error.InvalidInputDataError }
  else
    match B.d2i_DHparams der with
    | some dh =>
        if isSafeDH B dh then { derData := some der }
        else { error := Error.UnsafeParametersError }
    | none => { error := Error.InvalidInputDataError }

/-- Lines 113-153 of qssldiffiehellmanparameters_openssl.cpp:
QSslDiffieHellmanParametersPrivate::decodePem run on a fresh private object.
Empty input, an unavailable SSL backend, a failed BIO allocation, a failed
PEM read, or a failed re-encoding yields InvalidInputDataError; an unsafe
pair yields UnsafeParametersError; otherwise the freshly re-encoded DER
bytes are stored. -/
def decodePem (B : Backend) (pem : List Nat) : Priv :=
  if pem = [] then { error := Error.InvalidInputDataError }
  else if !B.supportsSsl then { error := Error.InvalidInputDataError }
  else if !B.bioNewMemBuf pem then { error := Error.InvalidInputDataError }
  else
    match B.pemReadBioDHparams pem with
    | some dh =>
        if isSafeDH B dh then
          match B.i2d_DHparams dh with
          | some buf => { derData := some buf }
          | none => { error := Error.InvalidInputDataError }
        else { error := Error.UnsafeParametersError }
    | none => { error := Error.InvalidInputDataError }

/-- The embedded constant of defaultParameters (lines 72-83 of
qssldiffiehellmanparameters.cpp): the result of QByteArray::fromBase64 on the
hardcoded literal, i.e. the DER encoding of the 1024-bit MODP group from
RFC 2459 (Second Oakley Group). -/
def defaultDerBytes : List Nat :=
  [48, 129, 135, 2, 129, 129, 0, 255, 255, 255, 255, 255, 255, 255, 255,
   201, 15, 218, 162, 33, 104, 194, 52, 196, 198, 98, 139, 128, 220, 28,
   209, 41, 2, 78, 8, 138, 103, 204, 116, 2, 11, 190, 166, 59, 19, 155,
   34, 81, 74, 8, 121, 142, 52, 4, 221, 239, 149, 25, 179, 205, 58, 67,
   27, 48, 43, 10, 109, 242, 95, 20, 55, 79, 225, 53, 109, 109, 81, 194,
   69, 228, 133, 181, 118, 98, 94, 126, 198, 244, 76, 66, 233, 166, 55,
   237, 107, 11, 255, 92, 182, 244, 6, 183, 237, 238, 56, 107, 251, 90,
   137, 159, 165, 174, 159, 36, 17, 124, 75, 31, 230, 73, 40, 102, 81,
   236, 230, 83, 129, 255, 255, 255, 255, 255, 255, 255, 255, 2, 1, 2]

/-- Lines 72-83 of qssldiffiehellmanparameters.cpp:
QSslDiffieHellmanParameters::defaultParameters constructs a value from the
embedded DER constant with encoding QSsl::Der, which delegates to decodeDer
on a fresh private object. -/
def defaultParameters (B : Backend) : Priv := decodeDer B defaultDerBytes

/-- Lines 198-201 of qssldiffiehellmanparameters.cpp:
isEmpty is derData.isNull() && error == NoError. -/
def Priv.isEmpty (v : Priv) : Bool :=
  v.derData == none && v.error == Error.NoError

/-- Lines 215-218 of qssldiffiehellmanparameters.cpp:
isValid is error == NoError. -/
def Priv.isValid (v : Priv) : Bool :=
  v.error == Error.NoError

/-- Content of a QByteArray: the null array and the empty array both hold
the empty byte sequence, which is what QByteArray comparison and hashing
consume. -/
def qbaContent : Option (List Nat) → List Nat
  | none => []
  | some b => b

/-- Lines 263-266 of qssldiffiehellmanparameters.cpp: operator== compares
lhs.d.derData and rhs.d.derData with QByteArray content equality. -/
def dhparamEq (lhs rhs : Priv) : Bool :=
  qbaContent lhs.derData == qbaContent rhs.derData

/-- Lines 300-303 of qssldiffiehellmanparameters.cpp: qHash applies the
external content-based QByteArray hash (an arbitrary function hashBytes of
the content and the seed) to derData and the seed. -/
def dhparamHash (hashBytes : List Nat → Nat → Nat) (v : Priv) (seed : Nat) : Nat :=
  hashBytes (qbaContent v.derData) seed

namespace Dummy

/-- Lines 45-48 of qssldiffiehellmanparameters_dummy.cpp: the no-backend
decodeDer only emits a qWarning and returns; the fresh private object is
left unchanged. -/
def decodeDer (der : List Nat) : Priv := {}

/-- Lines 50-53 of qssldiffiehellmanparameters_dummy.cpp: the no-backend
decodePem only emits a qWarning and returns; the fresh private object is
left unchanged. -/
def decodePem (pem : List Nat) : Priv := {}

end Dummy

/-- The private states reachable through the construction paths of
QSslDiffieHellmanParameters: the empty constructor, the DER decode path, the
PEM decode path, and defaultParameters (qssldiffiehellmanparameters.cpp,
lines 72-151). -/
inductive Constructed : Priv → Prop where
  | empty : Constructed {}
  | fromDer (B : Backend) (bytes : List Nat) : Constructed (decodeDer B bytes)
  | fromPem (B : Backend) (bytes : List Nat) : Constructed (decodePem B bytes)
  | fromDefault (B : Backend) : Constructed (defaultParameters B)

/-- The modulus of the Second Oakley Group, the integer encoded by
defaultDerBytes (1024 bits, congruent to 23 modulo 24). -/
def oakleyP : Nat := 179769313486231590770839156793787453197860296048756011706444423684197180216158519368947833795864925541502180565485980503646440548199239100050792877003355816639229553136239076508735759914822574862575007425302077447712589550957937778424442426617334727629299387668709205606050270810842907692932019128194467627007

/-- The Second Oakley Group as a parsed DH pair: modulus oakleyP and
generator 2. -/
def oakleyDH : DH := ⟨oakleyP, 2⟩

/-- A backend whose parsers always fail: every decode attempt through it is
malformed input. -/
def Bnone : Backend :=
  { dhCheck := fun _ => none
    d2i_DHparams := fun _ => none
    bioNewMemBuf := fun _ => true
    pemReadBioDHparams := fun _ => none
    i2d_DHparams := fun _ => none
    supportsSsl := true }

/-- A backend that parses every input to the Second Oakley Group, reports a
clean structural check, and re-encodes to defaultDerBytes. -/
def Boakley : Backend :=
  { dhCheck := fun _ => some 0
    d2i_DHparams := fun _ => some oakleyDH
    bioNewMemBuf := fun _ => true
    pemReadBioDHparams := fun _ => some oakleyDH
    i2d_DHparams := fun _ => some defaultDerBytes
    supportsSsl := true }

/-- A backend that parses every input to a 3-bit modulus, which isSafeDH
rejects on the 1024-bit floor. -/
def Buns : Backend :=
  { dhCheck := fun _ => some 0
    d2i_DHparams := fun _ => some ⟨5, 2⟩
    bioNewMemBuf := fun _ => true
    pemReadBioDHparams := fun _ => some ⟨5, 2⟩
    i2d_DHparams := fun _ => none
    supportsSsl := true }

lemma bitLenFuel_zero (fuel : Nat) : bitLenFuel fuel 0 = 0 := by
  cases fuel <;> rfl

lemma bitLenFuel_eq_of_bounds :
    ∀ fuel n k : Nat, n ≤ fuel → 2 ^ k ≤ n → n < 2 ^ (k + 1) →
      bitLenFuel fuel n = k + 1 := by
  intro fuel
  induction fuel with
  | zero =>
      intro n k hn hk _
      have h0 : 2 ^ k ≤ 0 := Nat.le_trans hk hn
      exact absurd h0 (Nat.not_le.mpr (by positivity))
  | succ f ih =>
      intro n k hn hk hk2
      cases n with
      | zero =>
        exact absurd hk (Nat.not_le.mpr (by positivity))
      | succ m =>
        show bitLenFuel f ((m + 1) / 2) + 1 = k + 1
        cases k with
        | zero =>
            have h1 : m + 1 < 2 := hk2
            have hm : m = 0 := by omega
            subst hm
            simp [bitLenFuel_zero]
        | succ j =>
            have hlow : 2 ^ j ≤ (m + 1) / 2 := by
              have h2 : 2 ^ j * 2 ≤ m + 1 := by
                calc 2 ^ j * 2 = 2 ^ (j + 1) := (pow_succ 2 j).symm
                _ ≤ m + 1 := hk
              omega
            have hhigh : (m + 1) / 2 < 2 ^ (j + 1) := by
              have h2 : m + 1 < 2 ^ (j + 1) * 2 := by
                calc m + 1 < 2 ^ (j + 1 + 1) := hk2
                _ = 2 ^ (j + 1) * 2 := pow_succ 2 (j + 1)
              omega
            have hfuel : (m + 1) / 2 ≤ f := by omega
            rw [ih ((m + 1) / 2) j hfuel hlow hhigh]

lemma bnNumBits_of_bounds {n k : Nat} (h1 : 2 ^ k ≤ n) (h2 : n < 2 ^ (k + 1)) :
    bnNumBits n = k + 1 :=
  bitLenFuel_eq_of_bounds n n k (Nat.le_refl n) h1 h2

lemma bnNumBits_oakleyP : bnNumBits oakleyP = 1024 := by
  have h := @bnNumBits_of_bounds oakleyP 1023 (by norm_num [oakleyP]) (by norm_num [oakleyP])
  simpa using h

lemma land_eight (s : Nat) : s &&& 8 = 8 * (s / 8 % 2) := by
  have h : s &&& 8 = (s.testBit 3).toNat * 2 ^ 3 := by
    have h8 : (8 : Nat) = 2 ^ 3 := by norm_num
    rw [h8, Nat.and_two_pow]
  rw [h]
  rcases Bool.eq_false_or_eq_true (s.testBit 3) with hb | hb <;>
  · rw [hb]
    rw [Nat.testBit_to_div_mod] at hb
    simp only [decide_eq_false_iff_not, decide_eq_true_eq] at hb
    norm_num at hb ⊢
    omega

lemma sub_land_eight_testBit (s i : Nat) :
    (s - (s &&& 8)).testBit i = if i = 3 then false else s.testBit i := by
  rw [land_eight]
  by_cases hb : s / 8 % 2 = 1
  · have hs8 : 8 ≤ s := by omega
    rw [hb]
    match i with
    | 0 =>
        simp only [Nat.testBit_to_div_mod, pow_zero, if_neg (by omega : (0:Nat) ≠ 3)]
        rw [decide_eq_decide]
        omega
    | 1 =>
        simp only [Nat.testBit_to_div_mod, if_neg (by omega : (1:Nat) ≠ 3)]
        rw [decide_eq_decide]
        norm_num
        omega
    | 2 =>
        simp only [Nat.testBit_to_div_mod, if_neg (by omega : (2:Nat) ≠ 3)]
        rw [decide_eq_decide]
        norm_num
        omega
    | 3 =>
        simp only [Nat.testBit_to_div_mod, if_pos rfl]
        norm_num
        omega
    | j + 4 =>
        simp only [Nat.testBit_to_div_mod, if_neg (by omega : j + 4 ≠ 3)]
        rw [decide_eq_decide]
        have e : ∀ n : Nat, n / 2 ^ (j + 4) = n / 16 / 2 ^ j := by
          intro n
          rw [Nat.div_div_eq_div_mul]
          congr 1
          rw [pow_add]
          ring
        rw [e, e]
        have h16 : (s - 8 * 1) / 16 = s / 16 := by omega
        rw [h16]
  · have hb0 : s / 8 % 2 = 0 := by omega
    rw [hb0]
    simp only [Nat.mul_zero, Nat.sub_zero]
    by_cases hi : i = 3
    · subst hi
      simp only [if_pos rfl, Nat.testBit_to_div_mod]
      norm_num
      omega
    · rw [if_neg hi]

lemma land_eleven_eq_zero (s : Nat) :
    s &&& 11 = 0 ↔ (s.testBit 0 = false ∧ s.testBit 1 = false ∧ s.testBit 3 = false) := by
  constructor
  · intro h
    have hb : ∀ j, (s &&& 11).testBit j = false := by
      intro j
      rw [h]
      exact Nat.zero_testBit j
    have h0 := hb 0
    have h1 := hb 1
    have h3 := hb 3
    rw [Nat.testBit_and] at h0 h1 h3
    simp only [show Nat.testBit 11 0 = true by decide,
      show Nat.testBit 11 1 = true by decide,
      show Nat.testBit 11 3 = true by decide, Bool.and_true] at h0 h1 h3
    exact ⟨h0, h1, h3⟩
  · rintro ⟨h0, h1, h3⟩
    apply Nat.eq_of_testBit_eq
    intro i
    simp only [Nat.testBit_and, Nat.zero_testBit]
    match i with
    | 0 => simp [h0]
    | 1 => simp [h1]
    | 2 => simp [show Nat.testBit 11 2 = false by decide]
    | 3 => simp [h3]
    | j + 4 =>
        have hlt : Nat.testBit 11 (j + 4) = false := by
          apply Nat.testBit_lt_two_pow
          calc (11 : Nat) < 2 ^ 4 := by norm_num
          _ ≤ 2 ^ (j + 4) := Nat.pow_le_pow_right (by norm_num) (by omega)
        simp [hlt]

lemma badFlags_eq : badFlags = 11 := by decide

lemma land_badFlags_ne_zero (s : Nat) :
    ¬(s &&& badFlags = 0) ↔
      (s.testBit 0 = true ∨ s.testBit 1 = true ∨ s.testBit 3 = true) := by
  rw [badFlags_eq, land_eleven_eq_zero]
  rcases Bool.eq_false_or_eq_true (s.testBit 0) with h0 | h0 <;>
    rcases Bool.eq_false_or_eq_true (s.testBit 1) with h1 | h1 <;>
      rcases Bool.eq_false_or_eq_true (s.testBit 3) with h3 | h3 <;>
        simp [h0, h1, h3]

/-- Claim C1: isSafeDH declares a parsed pair unsafe exactly when the
bit-length of p is below 1024, or the external structural check cannot run,
or, after the generator-2 adjustment, one of the flags P_NOT_PRIME (bit 0),
P_NOT_SAFE_PRIME (bit 1), NOT_SUITABLE_GENERATOR (bit 3) remains set in the
status mask; otherwise it declares the pair safe. -/
theorem isSafeDH_unsafe_iff (B : Backend) (dh : DH) :
    isSafeDH B dh = false ↔
      bnNumBits dh.p < 1024 ∨ B.dhCheck dh = none ∨
      ∃ s, B.dhCheck dh = some s ∧
        ((adjustStatus dh s).testBit 0 = true ∨
         (adjustStatus dh s).testBit 1 = true ∨
         (adjustStatus dh s).testBit 3 = true) := by
  unfold isSafeDH
  by_cases hb : bnNumBits dh.p < 1024
  · simp [hb]
  · rw [if_neg hb]
    cases hc : B.dhCheck dh with
    | none => simp [hb]
    | some s =>
        simp only [decide_eq_false_iff_not, hb, false_or]
        constructor
        · intro h
          right
          exact ⟨s, rfl, (land_badFlags_ne_zero _).mp h⟩
        · rintro (h | ⟨t, ht, h⟩)
          · exact absurd h (by simp)
          · have hts : t = s := by
              have h2 := ht
              simp only [Option.some.injEq] at h2
              exact h2.symm
            subst hts
            exact (land_badFlags_ne_zero _).mpr h

/-- Claim C2 counterexample: with g = 2 and p = 11 the residue p mod 24 is
11, the structural check reported NOT_SUITABLE_GENERATOR (mask 8, bit 3
set), and the adjustment clears the flag anyway, so at residue 11 the flag
is not left as computed by the structural check. -/
theorem adjustStatus_residue11_cleared :
    (11 : Nat) % 24 = 11 ∧
    Nat.testBit 8 3 = true ∧
    adjustStatus ⟨11, 2⟩ 8 = 0 := by decide

/-- Claim C2 amended: in the generator-2 adjustment the
NOT_SUITABLE_GENERATOR flag (bit 3) is cleared exactly when g = 2 and
p mod 24 is 11 or 23; every other bit, every other residue, and every
generator different from 2 leave the status bits exactly as computed by the
structural check. -/
theorem adjustStatus_characterization (dh : DH) (s i : Nat) :
    (adjustStatus dh s).testBit i =
      if dh.g = 2 ∧ (dh.p % 24 = 11 ∨ dh.p % 24 = 23) ∧ i = 3 then false
      else s.testBit i := by
  unfold adjustStatus
  by_cases hg : dh.g = 2
  · by_cases hr : dh.p % 24 = 11 ∨ dh.p % 24 = 23
    · have hcond : (dh.g == DH_GENERATOR_2) = true := by
        simp [hg, DH_GENERATOR_2]
      have hres : (dh.p % 24 == 11 || dh.p % 24 == 23) = true := by
        rcases hr with h | h <;> simp [h]
      rw [hcond]
      simp only [if_true]
      rw [hres]
      simp only [if_true, DH_NOT_SUITABLE_GENERATOR]
      rw [sub_land_eight_testBit]
      by_cases hi : i = 3
      · simp [hi, hg, hr]
      · simp [hi, hg, hr]
    · have hcond : (dh.g == DH_GENERATOR_2) = true := by
        simp [hg, DH_GENERATOR_2]
      have hres : (dh.p % 24 == 11 || dh.p % 24 == 23) = false := by
        push_neg at hr
        simp [hr.1, hr.2]
      rw [hcond]
      simp only [if_true]
      rw [hres]
      simp [hr]
  · have hcond : (dh.g == DH_GENERATOR_2) = false := by
      simp [DH_GENERATOR_2]
      exact hg
    rw [hcond]
    simp [hg]

lemma isSafeDH_oakley : isSafeDH Boakley oakleyDH = true := by
  have hbits : bnNumBits oakleyDH.p = 1024 := bnNumBits_oakleyP
  unfold isSafeDH
  rw [hbits]
  have hlt : ¬(1024 < 1024) := by omega
  rw [if_neg hlt]
  show decide (adjustStatus oakleyDH 0 &&& badFlags = 0) = true
  have hadj : adjustStatus oakleyDH 0 = 0 := by
    unfold adjustStatus
    norm_num [oakleyDH, DH_GENERATOR_2]
  rw [hadj]
  decide

/-- Claim C3: decodeDer yields InvalidInputDataError exactly when the input
is empty or the ASN.1 parse fails, yields UnsafeParametersError exactly when
the parse succeeds on non-empty input but the safety classifier rejects the
pair, and in every failing case the stored byte sequence stays absent. -/
theorem decodeDer_failure_spec (B : Backend) (der : List Nat) :
    ((decodeDer B der).error = Error.InvalidInputDataError ↔
        der = [] ∨ B.d2i_DHparams der = none) ∧
    ((decodeDer B der).error = Error.UnsafeParametersError ↔
        der ≠ [] ∧ ∃ dh, B.d2i_DHparams der = some dh ∧ isSafeDH B dh = false) ∧
    ((decodeDer B der).error ≠ Error.NoError → (decodeDer B der).derData = none) := by
  by_cases h0 : der = []
  · subst h0
    simp [decodeDer]
  · cases hc : B.d2i_DHparams der with
    | none => simp [decodeDer, h0, hc]
    | some dh =>
        rcases Bool.eq_false_or_eq_true (isSafeDH B dh) with hs | hs <;>
          simp [decodeDer, h0, hc, hs]

/-- Claim C3 witness: with a backend whose parser fails, decoding the
concrete input [5] stores no bytes. -/
theorem decodeDer_failure_spec_witness :
    (decodeDer Bnone [5]).derData = none :=
  (decodeDer_failure_spec Bnone [5]).2.2 (by decide)

/-- Claim C4: when the DER input parses and the pair is classified safe,
decodeDer stores the original input bytes unchanged and the error state is
NoError. -/
theorem decodeDer_success_spec (B : Backend) (der : List Nat) (dh : DH)
    (hne : der ≠ []) (hp : B.d2i_DHparams der = some dh)
    (hs : isSafeDH B dh = true) :
    (decodeDer B der).derData = some der ∧
    (decodeDer B der).error = Error.NoError := by
  simp [decodeDer, hne, hp, hs]

/-- Claim C4 witness: a backend that parses the input [7] to the Second
Oakley Group stores exactly the bytes [7] with no error. -/
theorem decodeDer_success_spec_witness :
    (decodeDer Boakley [7]).derData = some [7] ∧
    (decodeDer Boakley [7]).error = Error.NoError :=
  decodeDer_success_spec Boakley [7] oakleyDH (by decide) rfl isSafeDH_oakley

/-- Claim C5: decodePem yields InvalidInputDataError exactly when the input
is empty, no SSL backend is available, the BIO cannot be allocated, the PEM
body cannot be decoded into a DH structure, or re-encoding the validated
pair fails; it yields UnsafeParametersError exactly when the parsed pair is
classified unsafe; and on the safe path with successful re-encoding it
stores the freshly re-encoded DER bytes with error state NoError. -/
theorem decodePem_spec (B : Backend) (pem : List Nat) :
    ((decodePem B pem).error = Error.InvalidInputDataError ↔
        pem = [] ∨ B.supportsSsl = false ∨ B.bioNewMemBuf pem = false ∨
        B.pemReadBioDHparams pem = none ∨
        (∃ dh, B.pemReadBioDHparams pem = some dh ∧ isSafeDH B dh = true ∧
          B.i2d_DHparams dh = none)) ∧
    ((decodePem B pem).error = Error.UnsafeParametersError ↔
        pem ≠ [] ∧ B.supportsSsl = true ∧ B.bioNewMemBuf pem = true ∧
        ∃ dh, B.pemReadBioDHparams pem = some dh ∧ isSafeDH B dh = false) ∧
    (∀ dh buf, B.supportsSsl = true → B.bioNewMemBuf pem = true →
        B.pemReadBioDHparams pem = some dh → isSafeDH B dh = true →
        B.i2d_DHparams dh = some buf → pem ≠ [] →
        (decodePem B pem).derData = some buf ∧
        (decodePem B pem).error = Error.NoError) := by
  by_cases h0 : pem = []
  · subst h0
    simp [decodePem]
  · rcases Bool.eq_false_or_eq_true B.supportsSsl with hssl | hssl
    · rcases Bool.eq_false_or_eq_true (B.bioNewMemBuf pem) with hbio | hbio
      · cases hpr : B.pemReadBioDHparams pem with
        | none => simp [decodePem, h0, hssl, hbio, hpr]
        | some dh =>
            rcases Bool.eq_false_or_eq_true (isSafeDH B dh) with hsafe | hsafe
            · cases hi2d : B.i2d_DHparams dh with
              | none =>
                  simp [decodePem, h0, hssl, hbio, hpr, hsafe, hi2d]
                  intro d b hd hs
                  subst hd
                  simp [hi2d]
              | some buf =>
                  simp [decodePem, h0, hssl, hbio, hpr, hsafe, hi2d]
                  intro d b hd hs hb
                  subst hd
                  rw [hi2d] at hb
                  exact Option.some.inj hb
            · simp [decodePem, h0, hssl, hbio, hpr, hsafe]
              intro d b hd hs
              subst hd
              rw [hsafe] at hs
              exact absurd hs (by simp)
      · simp [decodePem, h0, hssl, hbio]
    · simp [decodePem, h0, hssl]

/-- Claim C5 witness: on the concrete PEM input [1] through a backend that
reads the Second Oakley Group and re-encodes it to the default DER constant,
decodePem stores the re-encoded bytes with no error. -/
theorem decodePem_spec_witness :
    (decodePem Boakley [1]).derData = some defaultDerBytes ∧
    (decodePem Boakley [1]).error = Error.NoError :=
  (decodePem_spec Boakley [1]).2.2 oakleyDH defaultDerBytes rfl rfl rfl
    isSafeDH_oakley rfl (by decide)

lemma decodeDer_noError_of_derData (B : Backend) (bytes : List Nat) :
    (decodeDer B bytes).derData ≠ none → (decodeDer B bytes).error = Error.NoError := by
  by_cases h0 : bytes = []
  · subst h0
    simp [decodeDer]
  · cases hc : B.d2i_DHparams bytes with
    | none => simp [decodeDer, h0, hc]
    | some dh =>
        rcases Bool.eq_false_or_eq_true (isSafeDH B dh) with hs | hs <;>
          simp [decodeDer, h0, hc, hs]

lemma decodePem_noError_of_derData (B : Backend) (bytes : List Nat) :
    (decodePem B bytes).derData ≠ none → (decodePem B bytes).error = Error.NoError := by
  by_cases h0 : bytes = []
  · subst h0
    simp [decodePem]
  · rcases Bool.eq_false_or_eq_true B.supportsSsl with hssl | hssl
    · rcases Bool.eq_false_or_eq_true (B.bioNewMemBuf bytes) with hbio | hbio
      · cases hpr : B.pemReadBioDHparams bytes with
        | none => simp [decodePem, h0, hssl, hbio, hpr]
        | some dh =>
            rcases Bool.eq_false_or_eq_true (isSafeDH B dh) with hsafe | hsafe
            · cases hi2d : B.i2d_DHparams dh with
              | none => simp [decodePem, h0, hssl, hbio, hpr, hsafe, hi2d]
              | some buf => simp [decodePem, h0, hssl, hbio, hpr, hsafe, hi2d]
            · simp [decodePem, h0, hssl, hbio, hpr, hsafe]
      · simp [decodePem, h0, hssl, hbio]
    · simp [decodePem, h0, hssl]

/-- Claim C6: every value produced by the construction paths (empty
constructor, decodeDer, decodePem, defaultParameters) stores DER bytes only
with error state NoError; isEmpty holds exactly when no bytes are stored and
the error is NoError, isValid holds exactly when the error is NoError, the
default-constructed value is simultaneously empty and valid, and any value
with a non-NoError error state is not empty. -/
theorem constructed_invariant (v : Priv) (h : Constructed v) :
    (v.derData ≠ none ↔ (v.error = Error.NoError ∧ v.isEmpty = false)) ∧
    (v.isEmpty = true ↔ (v.derData = none ∧ v.error = Error.NoError)) ∧
    (v.isValid = true ↔ v.error = Error.NoError) ∧
    (Priv.isEmpty {} = true ∧ Priv.isValid {} = true) ∧
    (v.error ≠ Error.NoError → v.isEmpty = false) := by
  have key : v.derData ≠ none → v.error = Error.NoError := by
    cases h with
    | empty => simp
    | fromDer B bytes => exact decodeDer_noError_of_derData B bytes
    | fromPem B bytes => exact decodePem_noError_of_derData B bytes
    | fromDefault B => exact decodeDer_noError_of_derData B defaultDerBytes
  obtain ⟨e, d⟩ := v
  cases d with
  | none => cases e <;> simp [Priv.isEmpty, Priv.isValid]
  | some b =>
      cases e with
      | NoError => simp [Priv.isEmpty, Priv.isValid]
      | InvalidInputDataError => exact absurd (key (by simp)) (by simp)
      | UnsafeParametersError => exact absurd (key (by simp)) (by simp)

/-- Claim C6 witness: the default-constructed private state is
simultaneously empty and valid. -/
theorem constructed_invariant_witness :
    Priv.isEmpty {} = true ∧ Priv.isValid {} = true :=
  (constructed_invariant {} Constructed.empty).2.2.2.1

lemma dhparamEq_of_derData_eq (v w : Priv) (h : v.derData = w.derData) :
    dhparamEq v w = true := by
  unfold dhparamEq
  rw [h]
  exact beq_self_eq_true (qbaContent w.derData)

lemma dhparamHash_of_derData_eq (hashBytes : List Nat → Nat → Nat)
    (v w : Priv) (seed : Nat) (h : v.derData = w.derData) :
    dhparamHash hashBytes v seed = dhparamHash hashBytes w seed := by
  unfold dhparamHash
  rw [h]

/-- Claim C7: equality and hashing are functions of the stored DER byte
sequence alone: two values decoded from byte-identical DER input through the
same backend compare equal and hash identically for every seed, and a value
obtained through the PEM path whose stored re-encoded DER bytes equal those
of a directly DER-decoded value compares equal to it and hashes identically. -/
theorem dhparam_eq_hash_spec (B Bp : Backend) (der der2 pem : List Nat)
    (hashBytes : List Nat → Nat → Nat) (seed : Nat) :
    (der = der2 →
      dhparamEq (decodeDer B der) (decodeDer B der2) = true ∧
      dhparamHash hashBytes (decodeDer B der) seed =
        dhparamHash hashBytes (decodeDer B der2) seed) ∧
    ((decodePem B pem).derData = (decodeDer Bp der).derData →
      dhparamEq (decodePem B pem) (decodeDer Bp der) = true ∧
      dhparamHash hashBytes (decodePem B pem) seed =
        dhparamHash hashBytes (decodeDer Bp der) seed) := by
  constructor
  · intro hder
    subst hder
    exact ⟨dhparamEq_of_derData_eq _ _ rfl, dhparamHash_of_derData_eq _ _ _ _ rfl⟩
  · intro hdata
    exact ⟨dhparamEq_of_derData_eq _ _ hdata, dhparamHash_of_derData_eq _ _ _ _ hdata⟩

/-- Claim C7 witness: two decodes of the same concrete DER input compare
equal, and a PEM-path value whose stored bytes coincide with those of a
DER-path value compares equal to it. -/
theorem dhparam_eq_hash_spec_witness :
    dhparamEq (decodeDer Bnone [1]) (decodeDer Bnone [1]) = true ∧
    dhparamEq (decodePem Bnone [3]) (decodeDer Bnone [4]) = true :=
  ⟨((dhparam_eq_hash_spec Bnone Bnone [1] [1] [3] (fun _ _ => 0) 0).1 rfl).1,
   ((dhparam_eq_hash_spec Bnone Bnone [4] [4] [3] (fun _ _ => 0) 0).2 (by decide)).1⟩

/-- Claim C8: defaultParameters decodes the embedded DER constant (the
1024-bit Second Oakley Group); whenever the external facility parses the
constant and classifies it safe, the result carries error state NoError,
stores the constant bytes, reports isValid, and two calls compare equal
under the equality operator. -/
theorem defaultParameters_spec (B : Backend) (dh : DH)
    (h1 : B.d2i_DHparams defaultDerBytes = some dh)
    (h2 : isSafeDH B dh = true) :
    defaultParameters B = decodeDer B defaultDerBytes ∧
    (defaultParameters B).error = Error.NoError ∧
    (defaultParameters B).derData = some defaultDerBytes ∧
    (defaultParameters B).isValid = true ∧
    dhparamEq (defaultParameters B) (defaultParameters B) = true := by
  have hne : defaultDerBytes ≠ [] := by simp [defaultDerBytes]
  have hder := decodeDer_success_spec B defaultDerBytes dh hne h1 h2
  refine ⟨rfl, ?_, ?_, ?_, ?_⟩
  · exact hder.2
  · exact hder.1
  · simp [Priv.isValid, defaultParameters, hder.2]
  · exact dhparamEq_of_derData_eq _ _ rfl

/-- Claim C8 witness: through a backend that parses the embedded constant to
the Second Oakley Group and reports a clean structural check,
defaultParameters is valid with no error. -/
theorem defaultParameters_spec_witness :
    (defaultParameters Boakley).error = Error.NoError ∧
    (defaultParameters Boakley).isValid = true :=
  ⟨(defaultParameters_spec Boakley oakleyDH rfl isSafeDH_oakley).2.1,
   (defaultParameters_spec Boakley oakleyDH rfl isSafeDH_oakley).2.2.2.1⟩

/-- Claim C9 counterexample: on the concrete input [0] the no-backend
decoders leave the error state at NoError, so they do not return
InvalidInputDataError. -/
theorem dummy_decode_not_invalid :
    (Dummy.decodeDer [0]).error ≠ Error.InvalidInputDataError ∧
    (Dummy.decodePem [0]).error ≠ Error.InvalidInputDataError := by decide

/-- Claim C9 amended: when no crypto backend is compiled in, the no-op
decoder implementations leave the private state unchanged for every input:
the error state stays NoError and no bytes are stored (they only emit a
warning), rather than returning InvalidInputDataError. -/
theorem dummy_decode_noop (der pem : List Nat) :
    (Dummy.decodeDer der).error = Error.NoError ∧
    (Dummy.decodeDer der).derData = none ∧
    (Dummy.decodePem pem).error = Error.NoError ∧
    (Dummy.decodePem pem).derData = none :=
  ⟨rfl, rfl, rfl, rfl⟩

/-- Claim C10: the equality operator and the hash never consult the error
state: any two private states that both store no DER bytes compare equal and
hash identically for every hash function and seed, whatever their error
states are. -/
theorem eq_hash_ignore_error_state (v w : Priv)
    (hv : v.derData = none) (hw : w.derData = none)
    (hashBytes : List Nat → Nat → Nat) (seed : Nat) :
    dhparamEq v w = true ∧
    dhparamHash hashBytes v seed = dhparamHash hashBytes w seed := by
  have h : v.derData = w.derData := hv.trans hw.symm
  exact ⟨dhparamEq_of_derData_eq _ _ h, dhparamHash_of_derData_eq _ _ _ _ h⟩

/-- Claim C10 witness: a value decoded from invalid input compares equal to
the default-constructed empty value and to a value rejected as unsafe, even
though the three error states differ. -/
theorem eq_hash_ignore_error_state_witness :
    dhparamEq (decodeDer Bnone [1]) {} = true ∧
    dhparamEq (decodeDer Bnone [1]) (decodeDer Buns [1]) = true ∧
    (decodeDer Bnone [1]).error = Error.InvalidInputDataError ∧
    (decodeDer Buns [1]).error = Error.UnsafeParametersError :=
  ⟨(eq_hash_ignore_error_state (decodeDer Bnone [1]) {} (by decide) rfl
      (fun _ _ => 0) 0).1,
   (eq_hash_ignore_error_state (decodeDer Bnone [1]) (decodeDer Buns [1])
      (by decide) (by decide) (fun _ _ => 0) 0).1,
   by decide, by decide⟩

end QSslDH
